import Mathlib

/-!
Verification of the arena-agent dice & combat resolution engine.

The definitions below are a shallow embedding of the TypeScript source
in `src/backend/src/agent/tools.ts` and `src/backend/src/routes/arena.ts`:
pure functions become Lean functions, the throwing dice parser becomes an
`Option`-returning function (`none` = the `InvalidNotation` error), and the
random draws consumed by a function become explicit arguments (the i-th
draw is passed in, with its documented range where a theorem needs it).
-/

namespace ArenaAgent

/-- Selector kind of a keep/drop token (`kh`, `kl`, `dh`, `dl`), the
`KeepDrop["type"]` union of tools.ts. -/
inductive KDType
  | kh
  | kl
  | dh
  | dl
deriving DecidableEq, Repr

/-- The `KeepDrop` interface of tools.ts: a selector kind and its argument. -/
structure KeepDrop where
  kind : KDType
  n : Nat
deriving DecidableEq, Repr

/-- The `ParsedDice` interface of tools.ts. -/
structure ParsedDice where
  count : Nat
  sides : Nat
  keepDrop : Option KeepDrop
  modifier : Int
deriving DecidableEq, Repr

/-- ASCII decimal digit test, the `\d` character class of the source regexes. -/
def isDigit (c : Char) : Bool := 48 ≤ c.toNat && c.toNat ≤ 57

/-- Decimal value of a digit string, the `Number.parseInt(s, 10)` of the source
on an all-digit capture. -/
def digitsVal (ds : List Char) : Nat :=
  ds.foldl (fun a c => 10 * a + (c.toNat - 48)) 0

/-- Matches the two-character selector token case-insensitively, exactly the
`(kh|kl|dh|dl)` alternation under the regex `i` flag. -/
def selType2 (c1 c2 : Char) : Option KDType :=
  if (c1 == 'k' || c1 == 'K') && (c2 == 'h' || c2 == 'H') then some KDType.kh
  else if (c1 == 'k' || c1 == 'K') && (c2 == 'l' || c2 == 'L') then some KDType.kl
  else if (c1 == 'd' || c1 == 'D') && (c2 == 'h' || c2 == 'H') then some KDType.dh
  else if (c1 == 'd' || c1 == 'D') && (c2 == 'l' || c2 == 'L') then some KDType.dl
  else none

/-- The optional `(?:(kh|kl|dh|dl)(\d+))?` group: if the next two characters
form a selector token followed by at least one digit, consume the token and the
maximal digit run; otherwise the group matches nothing (`none`).  As in the
regex, a selector token not followed by a digit cannot be completed in any
other way, so returning `none` and letting the caller try the remainder as a
modifier reproduces the backtracking behaviour. -/
def parseSelTail (cs : List Char) : Option (KeepDrop × List Char) :=
  match cs with
  | c1 :: c2 :: rest =>
    match selType2 c1 c2 with
    | some t =>
      let nds := rest.takeWhile isDigit
      if nds = [] then none
      else some (⟨t, digitsVal nds⟩, rest.dropWhile isDigit)
    | none => none
  | _ => none

/-- The anchored `([+-]\d+)?$` suffix: the whole remainder must be empty
(modifier 0) or a sign followed by one or more digits. -/
def parseModTail (cs : List Char) : Option Int :=
  match cs with
  | [] => some 0
  | c :: rest =>
    if (c == '+' || c == '-') && (!rest.isEmpty && rest.all isDigit) then
      some (if c == '-' then -(digitsVal rest : Int) else (digitsVal rest : Int))
    else none

/-- After `<count>` and the separator and `<sides>` have been consumed: the
optional selector group, then the anchored optional modifier. -/
def parseAfterSides (count sides : Nat) (r3 : List Char) : Option ParsedDice :=
  match parseSelTail r3 with
  | some (kd, r4) => (parseModTail r4).map (fun m => ⟨count, sides, some kd, m⟩)
  | none => (parseModTail r3).map (fun m => ⟨count, sides, none, m⟩)

/-- Core of the dice-notation match `^(\d+)d(\d+)(?:(kh|kl|dh|dl)(\d+))?([+-]\d+)?$`,
parametrised by the set of characters the literal `d` separator may match
(`['d', 'D']` for the source regex, which carries the `i` flag; `['d']` for the
grammar as the spec words it).  Since `\d+` is greedy and none of the following
tokens can start with a digit, the regex match is reproduced without
backtracking. -/
def parseDiceCore (dchars : List Char) (cs : List Char) : Option ParsedDice :=
  let cd := cs.takeWhile isDigit
  let r1 := cs.dropWhile isDigit
  match r1 with
  | [] => none
  | c :: r2 =>
    if cd = [] then none
    else if c ∈ dchars then
      let sd := r2.takeWhile isDigit
      let r3 := r2.dropWhile isDigit
      if sd = [] then none
      else parseAfterSides (digitsVal cd) (digitsVal sd) r3
    else none

/-- Shallow embedding of `parseDiceNotation` of tools.ts.  The source throws
`Invalid dice notation`; here that is `none`.  The source regex carries the `i`
flag, so the `d` separator matches either case. -/
def parseDice (s : String) : Option ParsedDice :=
  parseDiceCore ['d', 'D'] s.toList

/-- The parsed form of the attack-damage regex `^(\d+)d(\d+)([+-]\d+)?$` used
inside `resolveAttackTool` (no keep/drop group). -/
structure DamageSpec where
  count : Nat
  sides : Nat
  modifier : Int
deriving DecidableEq, Repr

/-- Shallow embedding of the damage-dice match `damageDice.match(/^(\d+)d(\d+)([+-]\d+)?$/i)`
inside `resolveAttackTool` of tools.ts. -/
def parseDamageDice (s : String) : Option DamageSpec :=
  let cs := s.toList
  let cd := cs.takeWhile isDigit
  let r1 := cs.dropWhile isDigit
  match r1 with
  | [] => none
  | c :: r2 =>
    if cd = [] then none
    else if c = 'd' ∨ c = 'D' then
      let sd := r2.takeWhile isDigit
      let r3 := r2.dropWhile isDigit
      if sd = [] then none
      else (parseModTail r3).map (fun m => ⟨digitsVal cd, digitsVal sd, m⟩)
    else none

/-- Mathlib's structural insertion sort, standing in for the source's
`[...rolls].sort((a, b) => a - b)`: for a list of integers any stable
ascending sort produces the same list, and the structural definition lets
proofs and concrete evaluation proceed. -/
def jsSortAsc (l : List Int) : List Int :=
  List.insertionSort (· ≤ ·) l

/-- Shallow embedding of `applyKeepDrop` of tools.ts.  The slice calls are
reproduced exactly, including the JavaScript quirk that `sorted.slice(-n)`
with `n = 0` is `sorted.slice(0)` and therefore returns the whole array:
- `kh`: `sorted.slice(-n)`
- `kl`: `sorted.slice(0, n)`
- `dh`: `sorted.slice(0, Math.max(0, sorted.length - n))`
- `dl`: `sorted.slice(n)` -/
def applyKeepDrop (rolls : List Int) (kd : Option KeepDrop) : List Int :=
  match kd with
  | none => rolls
  | some k =>
    let sorted := jsSortAsc rolls
    match k.kind with
    | KDType.kh => if k.n = 0 then sorted else sorted.drop (sorted.length - k.n)
    | KDType.kl => sorted.take k.n
    | KDType.dh => sorted.take (sorted.length - k.n)
    | KDType.dl => sorted.drop k.n

/-- The `AttackOutcome` shape returned by `resolveAttackTool.execute`. -/
structure AttackOutcome where
  attackRoll : Int
  naturalRoll : Nat
  isCritical : Bool
  isFumble : Bool
  hit : Bool
  damageRolls : List Int
  totalDamage : Int
  narrative : String
deriving DecidableEq, Repr

/-- Shallow embedding of `resolveAttackTool.execute` of tools.ts.  The two
random sources are explicit arguments: `naturalRoll` is the d20 draw
(`Math.floor(Math.random() * 20) + 1`) and `dieDraw i` is the i-th damage die
result (`Math.floor(Math.random() * sides) + 1`). -/
def resolveAttack (attackerName targetName : String) (toHitBonus targetAC : Int)
    (damageDice damageType : String) (naturalRoll : Nat) (dieDraw : Nat → Int) :
    AttackOutcome :=
  let attackRoll : Int := (naturalRoll : Int) + toHitBonus
  let isCritical : Bool := naturalRoll == 20
  let isFumble : Bool := naturalRoll == 1
  let hit : Bool := isCritical || (!isFumble && decide (attackRoll ≥ targetAC))
  let dmg : List Int × Int :=
    if hit then
      match parseDamageDice damageDice with
      | some spec =>
        let count := spec.count * (if isCritical then 2 else 1)
        let rolls := (List.range count).map dieDraw
        (rolls, max 0 (rolls.foldl (· + ·) 0 + spec.modifier))
      | none => ([], 0)
    else ([], 0)
  let narrative : String :=
    if isCritical then
      "⚔️ CRITICAL HIT! " ++ attackerName ++ " rolls a natural 20! They strike "
        ++ targetName ++ " for " ++ toString dmg.2 ++ " " ++ damageType ++ " damage!"
    else if isFumble then
      "💨 Critical miss! " ++ attackerName ++ " rolls a natural 1 and whiffs completely!"
    else if hit then
      "🎯 " ++ attackerName ++ " rolls " ++ toString attackRoll ++ " (" ++ toString naturalRoll
        ++ "+" ++ toString toHitBonus ++ ") vs AC " ++ toString targetAC ++ " — hit! "
        ++ toString dmg.2 ++ " " ++ damageType ++ " damage to " ++ targetName ++ "."
    else
      "🛡️ " ++ attackerName ++ " rolls " ++ toString attackRoll ++ " (" ++ toString naturalRoll
        ++ "+" ++ toString toHitBonus ++ ") vs AC " ++ toString targetAC ++ " — miss!"
  { attackRoll := attackRoll
    naturalRoll := naturalRoll
    isCritical := isCritical
    isFumble := isFumble
    hit := hit
    damageRolls := dmg.1
    totalDamage := dmg.2
    narrative := narrative }

/-- The creature `type` enum of `generateStatBlockTool`. -/
inductive CreatureType
  | player
  | monster
  | npc
deriving DecidableEq, Repr

/-- The six ability scores of a stat block. -/
structure AbilityScores where
  strength : Int
  dexterity : Int
  constitution : Int
  intelligence : Int
  wisdom : Int
  charisma : Int
deriving DecidableEq, Repr

/-- One attack entry of a stat block. -/
structure Attack where
  name : String
  toHitBonus : Int
  damageDice : String
  damageType : String
deriving DecidableEq, Repr

/-- The stat block returned by `generateStatBlockTool.execute`. -/
structure StatBlock where
  id : String
  name : String
  kind : CreatureType
  armorClass : Int
  hitPoints : Int
  maxHitPoints : Int
  abilityScores : AbilityScores
  attacks : List Attack
  conditions : List String
  isAlive : Bool
deriving DecidableEq, Repr

/-- Shallow embedding of `generateStatBlockTool.execute` of tools.ts, for an
integer challenge rating (the claims under verification use integer CRs; for
integers every `Math.floor` in the source is floor division, and
`Math.floor(cr * 0.8)` agrees with `(cr * 4).fdiv 5` on the clamped range
0..30).  Random draws are explicit arguments:
- `hpU = Math.floor(Math.random() * 10)` (0..9),
- `acU = Math.floor(Math.random() * 3)` (0..2),
- `uStr`, `uDex`, `uCon` = `Math.floor(Math.random() * 4)` (0..3),
- `uInt`, `uWis`, `uCha` = `Math.floor(Math.random() * 6)` (0..5),
- `nonce` the `Date.now()`/`Math.random()` suffix of the id. -/
def generateStatBlock (name : String) (ty : CreatureType) (challengeRating : Int)
    (nonce : String) (hpU acU uStr uDex uCon uInt uWis uCha : Nat) : StatBlock :=
  let cr : Int := max 0 (min 30 challengeRating)
  let baseScore : Int := min (10 + cr) 30
  let hp : Int := max 1 (10 + cr * 15 + (hpU : Int))
  let ac : Int := min (10 + (cr * 4).fdiv 5 + (acU : Int)) 25
  let profBonus : Int := (cr - 1).fdiv 4 + 2
  let strength := min (baseScore + (uStr : Int) - 2) 30
  let dexterity := min (baseScore + (uDex : Int) - 2) 30
  let constitution := min (baseScore + (uCon : Int) - 2) 30
  let intelligence := min (8 + (uInt : Int)) 30
  let wisdom := min (8 + (uWis : Int)) 30
  let charisma := min (8 + (uCha : Int)) 30
  let strMod := (strength - 10).fdiv 2
  let tier : String :=
    if cr ≤ 1 then "1d6" else if cr ≤ 4 then "1d8"
    else if cr ≤ 10 then "2d6" else if cr ≤ 16 then "2d8" else "3d6"
  { id := "creature-" ++ nonce
    name := name
    kind := ty
    armorClass := ac
    hitPoints := hp
    maxHitPoints := hp
    abilityScores := ⟨strength, dexterity, constitution, intelligence, wisdom, charisma⟩
    attacks := [⟨if ty = CreatureType.monster then "Claw" else "Longsword",
                 strMod + profBonus, tier ++ "+" ++ toString strMod, "slashing"⟩]
    conditions := []
    isAlive := true }

/-- The `status` column of the `arenas` table (`setup`/`active`/`completed`
are the values the run route reads and writes). -/
inductive ArenaStatus
  | setup
  | active
  | completed
deriving DecidableEq, Repr

/-- One row of the `arenas` table, restricted to the columns the run route
reads or writes (timestamps are omitted: no claim mentions them). -/
structure ArenaRow where
  id : String
  name : String
  description : String
  status : ArenaStatus
  createdBy : String
deriving DecidableEq, Repr

/-- One row of the `chatMessages` table (timestamps omitted). -/
structure MessageRow where
  id : String
  arenaId : String
  userId : String
  role : String
  content : String
deriving DecidableEq, Repr

/-- The durable store as the run route sees it. -/
structure DbState where
  arenas : List ArenaRow
  messages : List MessageRow
deriving DecidableEq, Repr

/-- The authenticated user of a request. -/
structure User where
  id : String
  role : String
deriving DecidableEq, Repr

/-- One item of the agent's full stream.  The route handles `text-delta` and
`tool-result` values; `other` stands for any other value type, which the
route silently skips. -/
inductive StreamItem
  | textDelta (delta : String)
  | toolResult (toolName : String) (result : String)
  | other
deriving DecidableEq, Repr

/-- Outcome of consuming `arenaMasterAgent.stream(...)`: either the stream
ends cleanly after the given items, or it raises after the given prefix of
items has been consumed (an agent or transport error caught by the route's
catch block). -/
inductive AgentOutcome
  | success (items : List StreamItem)
  | failure (items : List StreamItem) (errMsg : String)
deriving DecidableEq, Repr

/-- Payload of one wire event, tagged as in the route's `writeSSE` calls. -/
inductive EventData
  | statusActive
  | statusCompleted
  | chunk (text : String)
  | toolResult (toolName : String) (result : String)
  | error (message : String)
deriving DecidableEq, Repr

/-- One Server-Sent Event: payload plus the `eventId++` sequence id. -/
structure SSEvent where
  data : EventData
  id : Nat
deriving DecidableEq, Repr

/-- The route's non-stream responses, plus `streamed` for the SSE path. -/
inductive RunResponse
  | notFound
  | forbidden
  | alreadyRun
  | streamed
deriving DecidableEq, Repr

/-- Everything observable about one call of the run route: the HTTP-level
response kind, the ordered wire events, and the durable store afterwards. -/
structure RunOutput where
  response : RunResponse
  events : List SSEvent
  db : DbState
deriving DecidableEq, Repr

/-- `db.select().from(arenas).where(eq(arenas.id, id)).get()`. -/
def findArena (db : DbState) (arenaId : String) : Option ArenaRow :=
  db.arenas.find? (fun a => a.id == arenaId)

/-- `db.update(arenas).set({status}).where(eq(arenas.id, id))`. -/
def setArenaStatus (db : DbState) (arenaId : String) (st : ArenaStatus) : DbState :=
  { db with arenas := db.arenas.map (fun a => if a.id == arenaId then { a with status := st } else a) }

/-- The persisted transcript messages of one arena
(`select().from(chatMessages).where(eq(chatMessages.arenaId, id))`). -/
def arenaMessages (db : DbState) (arenaId : String) : List MessageRow :=
  db.messages.filter (fun m => m.arenaId == arenaId)

/-- Wire events for the consumed stream items, starting at sequence id `eid`.
`eventId` is incremented only when an event is written, so skipped item kinds
do not advance it. -/
def itemsEvents : List StreamItem → Nat → List SSEvent
  | [], _ => []
  | StreamItem.textDelta t :: rest, eid => ⟨EventData.chunk t, eid⟩ :: itemsEvents rest (eid + 1)
  | StreamItem.toolResult n r :: rest, eid => ⟨EventData.toolResult n r, eid⟩ :: itemsEvents rest (eid + 1)
  | StreamItem.other :: rest, eid => itemsEvents rest eid

/-- The transcript accumulated by `fullText += text` over the stream. -/
def fullTextOf (items : List StreamItem) : String :=
  items.foldl (fun acc i => match i with
    | StreamItem.textDelta t => acc ++ t
    | _ => acc) ""

/-- Shallow embedding of the `GET /:id/run` route of arena.ts, given the
agent-stream outcome, the `nanoid()` used for the inserted message, and the
authenticated user.  The source order is kept: arena lookup, ownership check,
existing-transcript check, then the SSE stream (status to `active`, one event
per handled item, and on clean completion insert the transcript then status
`completed`; on a caught failure one `error` event then status back to
`setup`, with no insert). -/
def runCombat (db : DbState) (user : User) (arenaId : String)
    (agent : AgentOutcome) (msgId : String) : RunOutput :=
  match findArena db arenaId with
  | none => ⟨RunResponse.notFound, [], db⟩
  | some arena =>
    if arena.createdBy ≠ user.id ∧ user.role ≠ "admin" then
      ⟨RunResponse.forbidden, [], db⟩
    else if 0 < (arenaMessages db arenaId).length then
      ⟨RunResponse.alreadyRun, [], db⟩
    else
      let db1 := setArenaStatus db arenaId ArenaStatus.active
      match agent with
      | AgentOutcome.success items =>
        let evs := itemsEvents items 1
        let db2 : DbState :=
          { db1 with messages := db1.messages ++ [⟨msgId, arenaId, user.id, "assistant", fullTextOf items⟩] }
        let db3 := setArenaStatus db2 arenaId ArenaStatus.completed
        ⟨RunResponse.streamed,
         ⟨EventData.statusActive, 0⟩ :: evs ++ [⟨EventData.statusCompleted, 1 + evs.length⟩],
         db3⟩
      | AgentOutcome.failure items errMsg =>
        let evs := itemsEvents items 1
        let db2 := setArenaStatus db1 arenaId ArenaStatus.setup
        ⟨RunResponse.streamed,
         ⟨EventData.statusActive, 0⟩ :: evs ++ [⟨EventData.error errMsg, 1 + evs.length⟩],
         db2⟩

/-- Whether a wire event is an `error` event. -/
def isErrorEvent (e : SSEvent) : Bool :=
  match e.data with
  | EventData.error _ => true
  | _ => false

/-! ### The dice grammar as the spec words it

The following predicates are written from the spec's grammar
`<count>d<sides>[<sel-op><sel-n>][<sign><modifier>]` (spec §4.1), to be
compared with the parser embedded from the source.  `GrammarMatch` is
parametrised by the set of characters the literal `d` separator may match:
`['d']` is the grammar as the spec words it ("case-insensitive on the
selector token", so nowhere else), `['d', 'D']` is the amended grammar that
the source regex (with its whole-pattern `i` flag) actually accepts. -/

/-- A non-empty all-digit string, the `\d+` of the grammar. -/
def IsNumeral (ds : List Char) : Prop := ds ≠ [] ∧ ∀ c ∈ ds, isDigit c = true

/-- The two characters of a selector token, case-insensitive as the spec
states ("Matching is case-insensitive on the selector token"). -/
def SelTokenChars (t : KDType) (c1 c2 : Char) : Prop :=
  match t with
  | KDType.kh => (c1 = 'k' ∨ c1 = 'K') ∧ (c2 = 'h' ∨ c2 = 'H')
  | KDType.kl => (c1 = 'k' ∨ c1 = 'K') ∧ (c2 = 'l' ∨ c2 = 'L')
  | KDType.dh => (c1 = 'd' ∨ c1 = 'D') ∧ (c2 = 'h' ∨ c2 = 'H')
  | KDType.dl => (c1 = 'd' ∨ c1 = 'D') ∧ (c2 = 'l' ∨ c2 = 'L')

/-- The `[<sel-op><sel-n>]` part of the grammar: absent, or a selector token
followed by a numeral whose value is the selection argument. -/
def SelPart : Option KeepDrop → List Char → Prop
  | none, cs => cs = []
  | some kd, cs => ∃ c1 c2 nds, cs = c1 :: c2 :: nds ∧ SelTokenChars kd.kind c1 c2 ∧
      IsNumeral nds ∧ kd.n = digitsVal nds

/-- The `[<sign><modifier>]` part of the grammar: absent (modifier 0), or a
sign followed by a numeral, negated for a minus sign. -/
def ModPart (m : Int) (cs : List Char) : Prop :=
  (cs = [] ∧ m = 0) ∨
  ∃ sgn mds, cs = sgn :: mds ∧ (sgn = '+' ∨ sgn = '-') ∧ IsNumeral mds ∧
    m = (if sgn = '-' then -(digitsVal mds : Int) else (digitsVal mds : Int))

/-- Membership of `cs` in the grammar, together with the literal field values
the spec says a parse must return. -/
def GrammarMatch (dchars : List Char) (cs : List Char) (r : ParsedDice) : Prop :=
  ∃ cd dc sd selCs modCs,
    cs = cd ++ dc :: (sd ++ (selCs ++ modCs)) ∧
    IsNumeral cd ∧ dc ∈ dchars ∧ IsNumeral sd ∧
    SelPart r.keepDrop selCs ∧ ModPart r.modifier modCs ∧
    r.count = digitsVal cd ∧ r.sides = digitsVal sd

/-! ### Parser/grammar correspondence lemmas -/

theorem takeWhile_dropWhile_append (p : Char → Bool) (ds rest : List Char)
    (h : ∀ c ∈ ds, p c = true) (h2 : ∀ c, rest.head? = some c → p c = false) :
    (ds ++ rest).takeWhile p = ds ∧ (ds ++ rest).dropWhile p = rest := by
  induction ds with
  | nil =>
    simp only [List.nil_append]
    cases rest with
    | nil => simp
    | cons c cs =>
      have hc := h2 c rfl
      simp [List.takeWhile_cons, List.dropWhile_cons, hc]
  | cons d ds ih =>
    have hd : p d = true := h d (by simp)
    have ih' := ih (fun c hc => h c (by simp [hc]))
    simp [List.takeWhile_cons, List.dropWhile_cons, hd, ih'.1, ih'.2]

theorem mem_takeWhile_digit (p : Char → Bool) (l : List Char) :
    ∀ c ∈ l.takeWhile p, p c = true := by
  induction l with
  | nil => simp
  | cons a l ih =>
    by_cases ha : p a
    · simp only [List.takeWhile_cons, if_pos ha]
      intro c hc
      rcases List.mem_cons.mp hc with h | h
      · rw [h]; exact ha
      · exact ih c h
    · simp [List.takeWhile_cons, ha]

theorem head_dropWhile_false (p : Char → Bool) (l : List Char) :
    ∀ c, (l.dropWhile p).head? = some c → p c = false := by
  induction l with
  | nil => simp
  | cons a l ih =>
    intro c hc
    by_cases ha : p a
    · rw [List.dropWhile_cons, if_pos ha] at hc
      exact ih c hc
    · rw [List.dropWhile_cons, if_neg ha] at hc
      simp only [List.head?_cons, Option.some.injEq] at hc
      rw [← hc]
      exact Bool.eq_false_iff.mpr ha

theorem selTokenChars_selType2 (t : KDType) (c1 c2 : Char)
    (h : SelTokenChars t c1 c2) : selType2 c1 c2 = some t := by
  cases t <;> obtain ⟨h1 | h1, h2 | h2⟩ := h <;> subst h1 <;> subst h2 <;> decide

theorem selType2_selTokenChars (t : KDType) (c1 c2 : Char)
    (h : selType2 c1 c2 = some t) : SelTokenChars t c1 c2 := by
  unfold selType2 at h
  split_ifs at h with h1 h2 h3 h4 <;>
    simp only [Option.some.injEq] at h <;> subst h <;>
    simp only [SelTokenChars] <;>
    simp_all [Bool.and_eq_true, Bool.or_eq_true, beq_iff_eq]

theorem selType2_of_sign (c1 c2 : Char) (h : c1 = '+' ∨ c1 = '-') :
    selType2 c1 c2 = none := by
  rcases h with h | h <;> subst h <;>
    simp [selType2]

theorem selTokenChars_not_digit (t : KDType) (c1 c2 : Char)
    (h : SelTokenChars t c1 c2) : isDigit c1 = false := by
  cases t <;> rcases h.1 with h1 | h1 <;> subst h1 <;> decide

theorem parseModTail_complete (cs : List Char) (m : Int) (h : ModPart m cs) :
    parseModTail cs = some m := by
  rcases h with ⟨hnil, hm⟩ | ⟨sgn, mds, hcs, hsgn, ⟨hne, hdig⟩, hm⟩
  · subst hnil; subst hm; rfl
  · subst hcs
    have hall : mds.all isDigit = true := List.all_eq_true.mpr hdig
    have hnonempty : mds.isEmpty = false := by
      cases mds with
      | nil => exact absurd rfl hne
      | cons a l => rfl
    rcases hsgn with h1 | h1 <;> subst h1
    · rw [if_neg (by decide : ¬ ('+' : Char) = '-')] at hm
      simp only [parseModTail]
      rw [if_pos (by simp [hall, hnonempty]),
          if_neg (by decide : ¬ (('+' : Char) == '-') = true), hm]
    · rw [if_pos (rfl : ('-' : Char) = '-')] at hm
      simp only [parseModTail]
      rw [if_pos (by simp [hall, hnonempty]),
          if_pos (by decide : (('-' : Char) == '-') = true), hm]

theorem parseModTail_sound (cs : List Char) (m : Int) (h : parseModTail cs = some m) :
    ModPart m cs := by
  cases cs with
  | nil =>
    simp only [parseModTail, Option.some.injEq] at h
    exact Or.inl ⟨rfl, h.symm⟩
  | cons c rest =>
    simp only [parseModTail] at h
    by_cases hcond : ((c == '+' || c == '-') && (!rest.isEmpty && rest.all isDigit)) = true
    · rw [if_pos hcond] at h
      simp only [Option.some.injEq] at h
      simp only [Bool.and_eq_true, Bool.or_eq_true] at hcond
      have hsgn : c = '+' ∨ c = '-' := by
        rcases hcond.1 with h1 | h1
        · exact Or.inl (beq_iff_eq.mp h1)
        · exact Or.inr (beq_iff_eq.mp h1)
      have hne : rest ≠ [] := by
        have h1 := hcond.2.1
        cases rest with
        | nil => simp at h1
        | cons a l => exact List.cons_ne_nil a l
      have hdig : ∀ x ∈ rest, isDigit x = true := List.all_eq_true.mp hcond.2.2
      refine Or.inr ⟨c, rest, rfl, hsgn, ⟨hne, hdig⟩, ?_⟩
      rw [← h]
      rcases hsgn with h1 | h1 <;> subst h1
      · rw [if_neg (by decide : ¬ (('+' : Char) == '-') = true),
            if_neg (by decide : ¬ ('+' : Char) = '-')]
      · rw [if_pos (by decide : (('-' : Char) == '-') = true),
            if_pos (rfl : ('-' : Char) = '-')]
    · rw [if_neg hcond] at h
      exact absurd h (by simp)

theorem modPart_head_not_digit (m : Int) (cs : List Char) (h : ModPart m cs) :
    ∀ c, cs.head? = some c → isDigit c = false := by
  rcases h with ⟨hnil, _⟩ | ⟨sgn, mds, hcs, hsgn, _, _⟩
  · subst hnil; simp
  · subst hcs
    intro c hc
    simp only [List.head?_cons, Option.some.injEq] at hc
    subst hc
    rcases hsgn with h1 | h1 <;> subst h1 <;> decide

theorem selPart_modPart_head_not_digit (kd : Option KeepDrop) (m : Int)
    (selCs modCs : List Char) (hsel : SelPart kd selCs) (hmod : ModPart m modCs) :
    ∀ c, (selCs ++ modCs).head? = some c → isDigit c = false := by
  cases kd with
  | none =>
    have : selCs = [] := hsel
    subst this
    simpa using modPart_head_not_digit m modCs hmod
  | some k =>
    obtain ⟨c1, c2, nds, hcs, htok, _, _⟩ := hsel
    subst hcs
    intro c hc
    simp only [List.cons_append, List.head?_cons, Option.some.injEq] at hc
    subst hc
    exact selTokenChars_not_digit k.kind c1 c2 htok

theorem parseSelTail_sound (cs : List Char) (kd : KeepDrop) (r4 : List Char)
    (h : parseSelTail cs = some (kd, r4)) :
    ∃ c1 c2 nds, cs = c1 :: c2 :: (nds ++ r4) ∧ SelTokenChars kd.kind c1 c2 ∧
      IsNumeral nds ∧ kd.n = digitsVal nds := by
  match cs with
  | [] => exact absurd h (by simp [parseSelTail])
  | [c1] => exact absurd h (by simp [parseSelTail])
  | c1 :: c2 :: rest =>
    simp only [parseSelTail] at h
    cases hsel : selType2 c1 c2 with
    | none => rw [hsel] at h; exact absurd h (by simp)
    | some t =>
      rw [hsel] at h
      dsimp only at h
      by_cases hnds : rest.takeWhile isDigit = []
      · rw [if_pos hnds] at h; exact absurd h (by simp)
      · rw [if_neg hnds] at h
        simp only [Option.some.injEq, Prod.mk.injEq] at h
        obtain ⟨hkd, hr4⟩ := h
        refine ⟨c1, c2, rest.takeWhile isDigit, ?_, ?_, ⟨hnds, mem_takeWhile_digit isDigit rest⟩, ?_⟩
        · rw [← hr4, List.takeWhile_append_dropWhile]
        · rw [← hkd]; exact selType2_selTokenChars t c1 c2 hsel
        · rw [← hkd]

theorem parseSelTail_none_of_modPart (m : Int) (modCs : List Char)
    (hmod : ModPart m modCs) : parseSelTail modCs = none := by
  rcases hmod with ⟨hnil, _⟩ | ⟨sgn, mds, hcs, hsgn, _, _⟩
  · subst hnil; rfl
  · subst hcs
    cases mds with
    | nil => rfl
    | cons m1 mrest =>
      simp only [parseSelTail]
      rw [selType2_of_sign sgn m1 hsgn]

theorem parseAfterSides_complete (count sides : Nat) (kd : Option KeepDrop) (m : Int)
    (selCs modCs : List Char) (hsel : SelPart kd selCs) (hmod : ModPart m modCs) :
    parseAfterSides count sides (selCs ++ modCs) = some ⟨count, sides, kd, m⟩ := by
  cases kd with
  | none =>
    have hempty : selCs = [] := hsel
    subst hempty
    simp only [List.nil_append, parseAfterSides]
    rw [parseSelTail_none_of_modPart m modCs hmod, parseModTail_complete modCs m hmod]
    rfl
  | some k =>
    obtain ⟨c1, c2, nds, hcs, htok, ⟨hne, hdig⟩, hn⟩ := hsel
    subst hcs
    have happ := takeWhile_dropWhile_append isDigit nds modCs hdig
      (modPart_head_not_digit m modCs hmod)
    have hself : parseSelTail (c1 :: c2 :: (nds ++ modCs)) = some (k, modCs) := by
      simp only [parseSelTail]
      rw [selTokenChars_selType2 k.kind c1 c2 htok]
      dsimp only
      rw [happ.1, happ.2, if_neg hne]
      have hkd : (⟨k.kind, digitsVal nds⟩ : KeepDrop) = k := by
        cases k with
        | mk kind n =>
          dsimp only at hn
          rw [hn]
      rw [hkd]
    simp only [List.cons_append, parseAfterSides]
    rw [hself]
    dsimp only
    rw [parseModTail_complete modCs m hmod]
    rfl

theorem parseAfterSides_sound (count sides : Nat) (r3 : List Char) (r : ParsedDice)
    (h : parseAfterSides count sides r3 = some r) :
    ∃ selCs modCs, r3 = selCs ++ modCs ∧ SelPart r.keepDrop selCs ∧
      ModPart r.modifier modCs ∧ r.count = count ∧ r.sides = sides := by
  simp only [parseAfterSides] at h
  cases hst : parseSelTail r3 with
  | some pr =>
    obtain ⟨kd, r4⟩ := pr
    rw [hst] at h
    dsimp only at h
    cases hmt : parseModTail r4 with
    | none => rw [hmt] at h; exact absurd h (by simp)
    | some m =>
      rw [hmt] at h
      simp only [Option.map_some', Option.some.injEq] at h
      obtain ⟨c1, c2, nds, hcs, htok, hnum, hn⟩ := parseSelTail_sound r3 kd r4 hst
      refine ⟨c1 :: c2 :: nds, r4, by rw [hcs]; simp, ?_, ?_, ?_, ?_⟩
      · rw [← h]
        exact ⟨c1, c2, nds, rfl, htok, hnum, hn⟩
      · rw [← h]
        exact parseModTail_sound r4 m hmt
      · rw [← h]
      · rw [← h]
  | none =>
    rw [hst] at h
    dsimp only at h
    cases hmt : parseModTail r3 with
    | none => rw [hmt] at h; exact absurd h (by simp)
    | some m =>
      rw [hmt] at h
      simp only [Option.map_some', Option.some.injEq] at h
      refine ⟨[], r3, by simp, ?_, ?_, ?_, ?_⟩
      · rw [← h]; rfl
      · rw [← h]
        exact parseModTail_sound r3 m hmt
      · rw [← h]
      · rw [← h]

/-- Completeness half of the parser/grammar correspondence: every string of
the grammar parses to exactly the literal fields of its decomposition. -/
theorem grammarMatch_parseDiceCore (dchars : List Char) (cs : List Char) (r : ParsedDice)
    (hd : ∀ c ∈ dchars, isDigit c = false) (h : GrammarMatch dchars cs r) :
    parseDiceCore dchars cs = some r := by
  obtain ⟨rc, rs, rk, rm⟩ := r
  obtain ⟨cd, dc, sd, selCs, modCs, hcs, hcd, hdc, hsd, hsel, hmod, hcount, hsides⟩ := h
  have hdcd : isDigit dc = false := hd dc hdc
  have h1 := takeWhile_dropWhile_append isDigit cd (dc :: (sd ++ (selCs ++ modCs))) hcd.2
    (by intro c hc; simp only [List.head?_cons, Option.some.injEq] at hc; rw [← hc]; exact hdcd)
  have h2 := takeWhile_dropWhile_append isDigit sd (selCs ++ modCs) hsd.2
    (selPart_modPart_head_not_digit rk rm selCs modCs hsel hmod)
  subst hcs
  simp only [parseDiceCore]
  rw [h1.1, h1.2]
  dsimp only
  rw [if_neg hcd.1, if_pos hdc, h2.1, h2.2, if_neg hsd.1]
  rw [parseAfterSides_complete (digitsVal cd) (digitsVal sd) rk rm selCs modCs hsel hmod]
  dsimp only at hcount hsides
  rw [hcount, hsides]

/-- Soundness half of the parser/grammar correspondence: every successful
parse exhibits a grammar decomposition with the returned fields. -/
theorem parseDiceCore_grammarMatch (dchars : List Char) (cs : List Char) (r : ParsedDice)
    (h : parseDiceCore dchars cs = some r) : GrammarMatch dchars cs r := by
  simp only [parseDiceCore] at h
  cases hr1 : cs.dropWhile isDigit with
  | nil => rw [hr1] at h; exact absurd h (by simp)
  | cons c r2 =>
    rw [hr1] at h
    simp only [] at h
    by_cases hcd : cs.takeWhile isDigit = []
    · rw [if_pos hcd] at h; exact absurd h (by simp)
    · rw [if_neg hcd] at h
      by_cases hdc : c ∈ dchars
      · rw [if_pos hdc] at h
        by_cases hsd : r2.takeWhile isDigit = []
        · rw [if_pos hsd] at h; exact absurd h (by simp)
        · rw [if_neg hsd] at h
          obtain ⟨selCs, modCs, hr3, hsel, hmod, hcount, hsides⟩ :=
            parseAfterSides_sound (digitsVal (cs.takeWhile isDigit))
              (digitsVal (r2.takeWhile isDigit)) (r2.dropWhile isDigit) r h
          refine ⟨cs.takeWhile isDigit, c, r2.takeWhile isDigit, selCs, modCs, ?_,
            ⟨hcd, mem_takeWhile_digit isDigit cs⟩, hdc,
            ⟨hsd, mem_takeWhile_digit isDigit r2⟩, hsel, hmod, hcount, hsides⟩
          conv_lhs => rw [← List.takeWhile_append_dropWhile (p := isDigit) (l := cs)]
          rw [hr1, ← hr3, List.takeWhile_append_dropWhile]
      · rw [if_neg hdc] at h; exact absurd h (by simp)

/-! ### Digit-value lemmas (for the count/sides invariant) -/

theorem digitsVal_foldl_eq_zero (ds : List Char) (h : ∀ c ∈ ds, isDigit c = true) :
    ∀ acc : Nat, (ds.foldl (fun a c => 10 * a + (c.toNat - 48)) acc = 0 ↔
      acc = 0 ∧ ∀ c ∈ ds, c = '0') := by
  induction ds with
  | nil => intro acc; simp
  | cons c ds ih =>
    intro acc
    have hc := h c (List.mem_cons_self c ds)
    have hcn : 48 ≤ c.toNat ∧ c.toNat ≤ 57 := by
      simpa [isDigit, Bool.and_eq_true, decide_eq_true_eq] using hc
    have hrest : ∀ x ∈ ds, isDigit x = true := fun x hx => h x (List.mem_cons_of_mem c hx)
    rw [List.foldl_cons, ih hrest (10 * acc + (c.toNat - 48))]
    constructor
    · rintro ⟨h0, hall⟩
      have hacc : acc = 0 := by omega
      have hc48 : c.toNat = 48 := by omega
      have hc0 : c = '0' := by
        rw [← Char.ofNat_toNat c, hc48]
      refine ⟨hacc, ?_⟩
      intro x hx
      rcases List.mem_cons.mp hx with h1 | h1
      · rw [h1]; exact hc0
      · exact hall x h1
    · rintro ⟨hacc, hall⟩
      have hc0 : c = '0' := hall c (List.mem_cons_self c ds)
      have hc48 : c.toNat = 48 := by rw [hc0]; decide
      refine ⟨by omega, ?_⟩
      intro x hx
      exact hall x (List.mem_cons_of_mem c hx)

theorem digitsVal_pos_iff (ds : List Char) (h : ∀ c ∈ ds, isDigit c = true) :
    1 ≤ digitsVal ds ↔ ∃ c ∈ ds, c ≠ '0' := by
  have hz := digitsVal_foldl_eq_zero ds h 0
  rw [digitsVal]
  constructor
  · intro h1
    by_contra hno
    push_neg at hno
    have h0 := hz.mpr ⟨rfl, hno⟩
    omega
  · rintro ⟨c, hc, hne⟩
    by_contra h1
    have h0 : ds.foldl (fun a c => 10 * a + (c.toNat - 48)) 0 = 0 := by omega
    exact hne ((hz.mp h0).2 c hc)

/-- A successful parse returns exactly the decimal values of the two literal
digit runs of the notation (the count run is the maximal digit prefix; the
sides run is the maximal digit run after the separator). -/
theorem parseDice_literals (s : String) (r : ParsedDice) (h : parseDice s = some r) :
    (∀ c ∈ s.toList.takeWhile isDigit, isDigit c = true) ∧
    r.count = digitsVal (s.toList.takeWhile isDigit) ∧
    (∀ c ∈ ((s.toList.dropWhile isDigit).drop 1).takeWhile isDigit, isDigit c = true) ∧
    r.sides = digitsVal (((s.toList.dropWhile isDigit).drop 1).takeWhile isDigit) := by
  have hg := parseDiceCore_grammarMatch ['d', 'D'] s.toList r h
  obtain ⟨cd, dc, sd, selCs, modCs, hcs, hcd, hdc, hsd, hsel, hmod, hcount, hsides⟩ := hg
  have hdcd : isDigit dc = false := by
    have : dc = 'd' ∨ dc = 'D' := by simpa using hdc
    rcases this with h1 | h1 <;> subst h1 <;> decide
  have h1 := takeWhile_dropWhile_append isDigit cd (dc :: (sd ++ (selCs ++ modCs))) hcd.2
    (by intro c hc; simp only [List.head?_cons, Option.some.injEq] at hc; rw [← hc]; exact hdcd)
  have h2 := takeWhile_dropWhile_append isDigit sd (selCs ++ modCs) hsd.2
    (selPart_modPart_head_not_digit r.keepDrop r.modifier selCs modCs hsel hmod)
  rw [hcs, h1.1, h1.2]
  dsimp only [List.drop_succ_cons, List.drop_zero]
  rw [h2.1]
  exact ⟨hcd.2, hcount, hsd.2, hsides⟩

/-! ### Attack/sum lemmas -/

theorem foldl_add_eq_sum (l : List Int) : ∀ acc : Int, l.foldl (· + ·) acc = acc + l.sum := by
  induction l with
  | nil => intro acc; simp
  | cons x l ih =>
    intro acc
    rw [List.foldl_cons, ih (acc + x), List.sum_cons]
    ring

/-- If the damage string does not match the attack regex, the attack produces
no damage rolls and zero total damage, whatever else happens. -/
theorem resolveAttack_unparsable (an tn : String) (b ac : Int) (dd dt : String)
    (nr : Nat) (draw : Nat → Int) (hbad : parseDamageDice dd = none) :
    (resolveAttack an tn b ac dd dt nr draw).totalDamage = 0 ∧
    (resolveAttack an tn b ac dd dt nr draw).damageRolls = [] := by
  constructor <;> simp [resolveAttack, hbad]

/-! ### Orchestrator lemmas -/

theorem find?_map_setStatus (l : List ArenaRow) (aid : String) (st : ArenaStatus)
    (a : ArenaRow) (h : l.find? (fun x => x.id == aid) = some a) :
    (l.map (fun x => if x.id == aid then { x with status := st } else x)).find?
      (fun x => x.id == aid) = some { a with status := st } := by
  induction l with
  | nil => simp at h
  | cons x l ih =>
    rw [List.find?_cons] at h
    by_cases hx : (x.id == aid) = true
    · rw [hx] at h
      dsimp only at h
      simp only [Option.some.injEq] at h
      subst h
      simp only [List.map_cons, if_pos hx]
      simp [List.find?_cons, hx]
    · have hx' : (x.id == aid) = false := Bool.eq_false_iff.mpr hx
      rw [hx'] at h
      dsimp only at h
      simp only [List.map_cons, if_neg hx]
      simp only [List.find?_cons, hx']
      exact ih h

theorem findArena_setArenaStatus (db : DbState) (aid : String) (st : ArenaStatus)
    (a : ArenaRow) (h : findArena db aid = some a) :
    findArena (setArenaStatus db aid st) aid = some { a with status := st } :=
  find?_map_setStatus db.arenas aid st a h

theorem itemsEvents_no_error (items : List StreamItem) :
    ∀ eid, ∀ e ∈ itemsEvents items eid, isErrorEvent e = false := by
  induction items with
  | nil => intro eid e he; simp [itemsEvents] at he
  | cons i rest ih =>
    intro eid e he
    cases i with
    | textDelta t =>
      rcases List.mem_cons.mp he with h | h
      · rw [h]; rfl
      · exact ih (eid + 1) e h
    | toolResult n r =>
      rcases List.mem_cons.mp he with h | h
      · rw [h]; rfl
      · exact ih (eid + 1) e h
    | other => exact ih eid e he

theorem itemsEvents_filter_error (items : List StreamItem) (eid : Nat) :
    (itemsEvents items eid).filter isErrorEvent = [] :=
  List.filter_eq_nil_iff.mpr
    (fun e he => by rw [itemsEvents_no_error items eid e he]; simp)

/-! ### Claim theorems -/

/-- C1: for every attack resolution, for all values of toHitBonus and
targetAC (and any damage-die draws): a natural roll of 20 gives hit = true,
and a natural roll of 1 gives hit = false with empty damageRolls and
totalDamage = 0. -/
theorem c1_nat20_always_hits_nat1_always_misses (an tn dd dt : String) (b ac : Int)
    (draw : Nat → Int) :
    (resolveAttack an tn b ac dd dt 20 draw).hit = true ∧
    (resolveAttack an tn b ac dd dt 1 draw).hit = false ∧
    (resolveAttack an tn b ac dd dt 1 draw).damageRolls = [] ∧
    (resolveAttack an tn b ac dd dt 1 draw).totalDamage = 0 := by
  refine ⟨?_, ?_, ?_, ?_⟩ <;> simp [resolveAttack]

/-- C4 counterexample: the claim says case-insensitivity applies only to the
selector token, so "2D6" (capital separator) should fail with InvalidNotation;
the source regex carries a whole-pattern i flag and accepts it.  "2D6" parses
although no decomposition of it matches the strictly-lowercase-d grammar. -/
theorem c4_counterexample :
    parseDice "2D6" = some ⟨2, 6, none, 0⟩ ∧
    ¬ ∃ r : ParsedDice, GrammarMatch ['d'] "2D6".toList r := by
  refine ⟨by decide, ?_⟩
  rintro ⟨r, hg⟩
  have h := grammarMatch_parseDiceCore ['d'] "2D6".toList r (by decide) hg
  have h2 : parseDiceCore ['d'] "2D6".toList = none := by decide
  rw [h2] at h
  exact Option.noConfusion h

/-- C4 amended: parse accepts exactly the strings of the grammar
count-d-sides-[sel-op sel-n]-[sign modifier] with case-insensitivity on
the d separator as well as on the selector token (the regex i flag spans the
whole pattern), no whitespace, returning the literal count, sides, selection
and modifier fields exactly; every other string fails with InvalidNotation. -/
theorem c4_amended_parse_iff_grammar (s : String) (r : ParsedDice) :
    parseDice s = some r ↔ GrammarMatch ['d', 'D'] s.toList r :=
  ⟨parseDiceCore_grammarMatch ['d', 'D'] s.toList r,
   grammarMatch_parseDiceCore ['d', 'D'] s.toList r (by decide)⟩

/-- C5 counterexample: the digit runs of the notation may be all zeros, so a
successful parse does not guarantee count ≥ 1 and sides ≥ 1: "0d6" parses
with count = 0 and "1d0" parses with sides = 0. -/
theorem c5_counterexample :
    parseDice "0d6" = some ⟨0, 6, none, 0⟩ ∧
    parseDice "1d0" = some ⟨1, 0, none, 0⟩ ∧
    ¬ ∀ (s : String) (r : ParsedDice), parseDice s = some r → 1 ≤ r.count ∧ 1 ≤ r.sides := by
  refine ⟨by decide, by decide, ?_⟩
  intro hall
  have h := (hall "0d6" ⟨0, 6, none, 0⟩ (by decide)).1
  exact absurd h (by decide)

/-- C5 amended: the parser enforces no positivity on count or sides; a
returned spec has count ≥ 1 (resp. sides ≥ 1) exactly when the count literal
(the maximal digit prefix) resp. the sides literal (the digit run after the
separator) contains a nonzero digit, so notations like "0d6" and "1d0" are
accepted with zero fields. -/
theorem c5_amended_count_sides_iff_nonzero_literal (s : String) (r : ParsedDice)
    (h : parseDice s = some r) :
    (1 ≤ r.count ↔ ∃ c ∈ s.toList.takeWhile isDigit, c ≠ '0') ∧
    (1 ≤ r.sides ↔ ∃ c ∈ ((s.toList.dropWhile isDigit).drop 1).takeWhile isDigit, c ≠ '0') := by
  obtain ⟨hd1, hc1, hd2, hc2⟩ := parseDice_literals s r h
  rw [hc1, hc2]
  exact ⟨digitsVal_pos_iff _ hd1, digitsVal_pos_iff _ hd2⟩

/-- Witness for C5 amended at the concrete notation "2d6". -/
theorem c5_amended_witness :
    parseDice "2d6" = some ⟨2, 6, none, 0⟩ ∧
    ((1 ≤ (⟨2, 6, none, 0⟩ : ParsedDice).count ↔
        ∃ c ∈ "2d6".toList.takeWhile isDigit, c ≠ '0') ∧
     (1 ≤ (⟨2, 6, none, 0⟩ : ParsedDice).sides ↔
        ∃ c ∈ (("2d6".toList.dropWhile isDigit).drop 1).takeWhile isDigit, c ≠ '0')) :=
  ⟨by decide, c5_amended_count_sides_iff_nonzero_literal "2d6" ⟨2, 6, none, 0⟩ (by decide)⟩

/-- C8: a malformed damageDice string never aborts the attack — the outcome
is a total value (the embedding is a total function) with totalDamage = 0 and
empty damageRolls, hit or not. -/
theorem c8_malformed_damage_tolerated (an tn : String) (b ac : Int) (dd dt : String)
    (nr : Nat) (draw : Nat → Int) (hbad : parseDamageDice dd = none) :
    (resolveAttack an tn b ac dd dt nr draw).totalDamage = 0 ∧
    (resolveAttack an tn b ac dd dt nr draw).damageRolls = [] :=
  resolveAttack_unparsable an tn b ac dd dt nr draw hbad

/-- Witness for C8 on a hitting attack (natural 20) with a malformed damage
string. -/
theorem c8_malformed_damage_tolerated_witness :
    parseDamageDice "banana" = none ∧
    (resolveAttack "A" "B" 5 10 "banana" "slashing" 20 (fun _ => 3)).hit = true ∧
    ((resolveAttack "A" "B" 5 10 "banana" "slashing" 20 (fun _ => 3)).totalDamage = 0 ∧
     (resolveAttack "A" "B" 5 10 "banana" "slashing" 20 (fun _ => 3)).damageRolls = []) :=
  ⟨by decide, by decide,
   c8_malformed_damage_tolerated "A" "B" 5 10 "banana" "slashing" 20 (fun _ => 3) (by decide)⟩

/-- C10: at challenge rating 0 the draws giving strength 8 or 9 produce the
attack damage string "1d6+-1" (the negative strength modifier is appended
after a literal plus sign), which matches neither the dice grammar nor the
attack-damage regex, so a resolved attack with it always deals zero damage. -/
theorem c10_cr0_negative_modifier_zero_damage :
    (generateStatBlock "G" CreatureType.monster 0 "n" 0 0 0 0 0 0 0 0).abilityScores.strength = 8 ∧
    (generateStatBlock "G" CreatureType.monster 0 "n" 0 0 1 0 0 0 0 0).abilityScores.strength = 9 ∧
    (generateStatBlock "G" CreatureType.monster 0 "n" 0 0 0 0 0 0 0 0).attacks.map
      Attack.damageDice = ["1d6+-1"] ∧
    (generateStatBlock "G" CreatureType.monster 0 "n" 0 0 1 0 0 0 0 0).attacks.map
      Attack.damageDice = ["1d6+-1"] ∧
    parseDice "1d6+-1" = none ∧
    parseDamageDice "1d6+-1" = none ∧
    ∀ (an tn dt : String) (b ac : Int) (nr : Nat) (draw : Nat → Int),
      (resolveAttack an tn b ac "1d6+-1" dt nr draw).totalDamage = 0 ∧
      (resolveAttack an tn b ac "1d6+-1" dt nr draw).damageRolls = [] := by
  refine ⟨by decide, by decide, by decide, by decide, by decide, by decide, ?_⟩
  intro an tn dt b ac nr draw
  exact resolveAttack_unparsable an tn b ac "1d6+-1" dt nr draw (by decide)

theorem sorted_take_drop_le (l : List Int) (hs : List.Sorted (· ≤ ·) l) (k : Nat) :
    ∀ y ∈ l.take k, ∀ x ∈ l.drop k, y ≤ x := by
  rw [← List.take_append_drop k l] at hs
  exact (List.pairwise_append.mp hs).2.2

/-- C6 counterexample: with n = 0 ≤ length, KeepHighest(0) keeps everything
instead of nothing (JavaScript slice(-0) is slice(0)), so the kept set does
not have exactly n elements. -/
theorem c6_counterexample :
    (0 : Nat) ≤ ([1] : List Int).length ∧
    applyKeepDrop [1] (some ⟨KDType.kh, 0⟩) = [1] ∧
    (applyKeepDrop [1] (some ⟨KDType.kh, 0⟩)).length ≠ 0 := by decide

/-- C6 amended: for KeepHighest(n) with 1 ≤ n ≤ length (n = 0 returns the
whole sorted list) and KeepLowest(n) with n ≤ length, the kept list has
exactly n elements, and every dropped element (multiset difference) is ≤ each
kept element (resp. ≥ for KeepLowest). -/
theorem c6_amended_keep_counts_and_order (rolls : List Int) (n : Nat) :
    (1 ≤ n → n ≤ rolls.length →
      (applyKeepDrop rolls (some ⟨KDType.kh, n⟩)).length = n ∧
      ∀ x ∈ applyKeepDrop rolls (some ⟨KDType.kh, n⟩),
        ∀ y ∈ Multiset.ofList rolls -
            Multiset.ofList (applyKeepDrop rolls (some ⟨KDType.kh, n⟩)), y ≤ x) ∧
    (n ≤ rolls.length →
      (applyKeepDrop rolls (some ⟨KDType.kl, n⟩)).length = n ∧
      ∀ x ∈ applyKeepDrop rolls (some ⟨KDType.kl, n⟩),
        ∀ y ∈ Multiset.ofList rolls -
            Multiset.ofList (applyKeepDrop rolls (some ⟨KDType.kl, n⟩)), x ≤ y) := by
  have hperm : List.Perm (jsSortAsc rolls) rolls := List.perm_insertionSort _ rolls
  have hsort : List.Sorted (· ≤ ·) (jsSortAsc rolls) := List.sorted_insertionSort _ rolls
  have hlen : (jsSortAsc rolls).length = rolls.length := hperm.length_eq
  have hcoe : Multiset.ofList rolls = Multiset.ofList (jsSortAsc rolls) :=
    (Multiset.coe_eq_coe.mpr hperm).symm
  have horder := sorted_take_drop_le (jsSortAsc rolls) hsort
  constructor
  · intro h1 h2
    have hkh : applyKeepDrop rolls (some ⟨KDType.kh, n⟩) =
        (jsSortAsc rolls).drop ((jsSortAsc rolls).length - n) := by
      simp only [applyKeepDrop]
      rw [if_neg (by omega : ¬ n = 0)]
    rw [hkh]
    refine ⟨by rw [List.length_drop]; omega, ?_⟩
    intro x hx y hy
    have hsplit : Multiset.ofList (jsSortAsc rolls) =
        Multiset.ofList ((jsSortAsc rolls).take ((jsSortAsc rolls).length - n)) +
        Multiset.ofList ((jsSortAsc rolls).drop ((jsSortAsc rolls).length - n)) := by
      rw [Multiset.coe_add, List.take_append_drop]
    have hsub : Multiset.ofList rolls -
        Multiset.ofList ((jsSortAsc rolls).drop ((jsSortAsc rolls).length - n)) =
        Multiset.ofList ((jsSortAsc rolls).take ((jsSortAsc rolls).length - n)) := by
      rw [hcoe, hsplit, add_tsub_cancel_right]
    rw [hsub] at hy
    have hy' : y ∈ (jsSortAsc rolls).take ((jsSortAsc rolls).length - n) := by
      exact_mod_cast hy
    exact horder _ y hy' x hx
  · intro h2
    have hkl : applyKeepDrop rolls (some ⟨KDType.kl, n⟩) = (jsSortAsc rolls).take n := rfl
    rw [hkl]
    refine ⟨by rw [List.length_take]; omega, ?_⟩
    intro x hx y hy
    have hsplit : Multiset.ofList (jsSortAsc rolls) =
        Multiset.ofList ((jsSortAsc rolls).take n) +
        Multiset.ofList ((jsSortAsc rolls).drop n) := by
      rw [Multiset.coe_add, List.take_append_drop]
    have hsub : Multiset.ofList rolls - Multiset.ofList ((jsSortAsc rolls).take n) =
        Multiset.ofList ((jsSortAsc rolls).drop n) := by
      rw [hcoe, hsplit, add_tsub_cancel_left]
    rw [hsub] at hy
    have hy' : y ∈ (jsSortAsc rolls).drop n := by exact_mod_cast hy
    exact horder n x hx y hy'

/-- Witness for C6 amended at rolls = [3, 1, 2] and n = 2. -/
theorem c6_amended_witness :
    ((1 : Nat) ≤ 2 ∧ (2 : Nat) ≤ ([3, 1, 2] : List Int).length) ∧
    ((applyKeepDrop [3, 1, 2] (some ⟨KDType.kh, 2⟩)).length = 2 ∧
      ∀ x ∈ applyKeepDrop [3, 1, 2] (some ⟨KDType.kh, 2⟩),
        ∀ y ∈ Multiset.ofList ([3, 1, 2] : List Int) -
            Multiset.ofList (applyKeepDrop [3, 1, 2] (some ⟨KDType.kh, 2⟩)), y ≤ x) ∧
    ((applyKeepDrop [3, 1, 2] (some ⟨KDType.kl, 2⟩)).length = 2 ∧
      ∀ x ∈ applyKeepDrop [3, 1, 2] (some ⟨KDType.kl, 2⟩),
        ∀ y ∈ Multiset.ofList ([3, 1, 2] : List Int) -
            Multiset.ofList (applyKeepDrop [3, 1, 2] (some ⟨KDType.kl, 2⟩)), x ≤ y) :=
  ⟨⟨by decide, by decide⟩,
   (c6_amended_keep_counts_and_order [3, 1, 2] 2).1 (by decide) (by decide),
   (c6_amended_keep_counts_and_order [3, 1, 2] 2).2 (by decide)⟩

/-- C7 counterexample: "2d6kh1+3" is a valid §4.1 notation (it parses), but
the attack resolver's own regex has no keep/drop group, so on a hit no dice
are drawn (0 ≠ the parsed count 2) and total damage is 0. -/
theorem c7_counterexample :
    parseDice "2d6kh1+3" = some ⟨2, 6, some ⟨KDType.kh, 1⟩, 3⟩ ∧
    (resolveAttack "A" "B" 5 10 "2d6kh1+3" "slashing" 10 (fun _ => 3)).hit = true ∧
    (resolveAttack "A" "B" 5 10 "2d6kh1+3" "slashing" 10 (fun _ => 3)).damageRolls.length ≠ 2 ∧
    (resolveAttack "A" "B" 5 10 "2d6kh1+3" "slashing" 10 (fun _ => 3)).damageRolls = [] ∧
    (resolveAttack "A" "B" 5 10 "2d6kh1+3" "slashing" 10 (fun _ => 3)).totalDamage = 0 := by
  decide

/-- C7 amended: on a hit the damage string is parsed with the resolver's own
basic regex (count-d-sides with optional sign-modifier, no keep/drop); when it
matches, the dice drawn number twice the parsed count on a natural 20 and the
parsed count otherwise, the modifier is added exactly once, and totalDamage =
max(0, sum of drawn dice + modifier). -/
theorem c7_amended_damage_via_basic_regex (an tn : String) (b ac : Int) (dd dt : String)
    (nr : Nat) (draw : Nat → Int) (spec : DamageSpec)
    (hparse : parseDamageDice dd = some spec)
    (hhit : (resolveAttack an tn b ac dd dt nr draw).hit = true) :
    (resolveAttack an tn b ac dd dt nr draw).damageRolls =
      (List.range (spec.count * (if nr = 20 then 2 else 1))).map draw ∧
    (resolveAttack an tn b ac dd dt nr draw).damageRolls.length =
      spec.count * (if nr = 20 then 2 else 1) ∧
    (resolveAttack an tn b ac dd dt nr draw).totalDamage =
      max 0 ((resolveAttack an tn b ac dd dt nr draw).damageRolls.sum + spec.modifier) := by
  have hhit' := hhit
  simp only [resolveAttack] at hhit'
  simp only [resolveAttack, hparse]
  rw [if_pos hhit']
  dsimp only
  refine ⟨?_, ?_, ?_⟩
  · by_cases hnr : nr = 20 <;> simp [hnr]
  · by_cases hnr : nr = 20 <;> simp [hnr]
  · rw [foldl_add_eq_sum]
    rw [zero_add]

/-- Witness for C7 amended: "1d6+2" at natural roll 20 (critical, hit). -/
theorem c7_amended_witness :
    parseDamageDice "1d6+2" = some ⟨1, 6, 2⟩ ∧
    (resolveAttack "A" "B" 0 10 "1d6+2" "slashing" 20 (fun _ => 4)).hit = true ∧
    ((resolveAttack "A" "B" 0 10 "1d6+2" "slashing" 20 (fun _ => 4)).damageRolls =
      (List.range ((⟨1, 6, 2⟩ : DamageSpec).count * (if 20 = 20 then 2 else 1))).map
        (fun _ => (4 : Int)) ∧
     (resolveAttack "A" "B" 0 10 "1d6+2" "slashing" 20 (fun _ => 4)).damageRolls.length =
      (⟨1, 6, 2⟩ : DamageSpec).count * (if 20 = 20 then 2 else 1) ∧
     (resolveAttack "A" "B" 0 10 "1d6+2" "slashing" 20 (fun _ => 4)).totalDamage =
      max 0 ((resolveAttack "A" "B" 0 10 "1d6+2" "slashing" 20 (fun _ => 4)).damageRolls.sum +
        (⟨1, 6, 2⟩ : DamageSpec).modifier)) :=
  ⟨by decide, by decide,
   c7_amended_damage_via_basic_regex "A" "B" 0 10 "1d6+2" "slashing" 20 (fun _ => 4)
     ⟨1, 6, 2⟩ (by decide) (by decide)⟩

/-- C9 counterexample: at challenge rating 0 (base score 10) the
strength draw reaches only 8, 9, 10, 11 — the claimed offset +2 (score 12 =
min(10 + 2, 30)) is attainable by no draw, because the source draws
Math.floor(Math.random() * 4) - 2, i.e. an offset in -2..1, not -2..2. -/
theorem c9_counterexample :
    ((generateStatBlock "G" CreatureType.monster 0 "n" 0 0 0 0 0 0 0 0).abilityScores.strength
        = 8 ∧
     (generateStatBlock "G" CreatureType.monster 0 "n" 0 0 1 0 0 0 0 0).abilityScores.strength
        = 9 ∧
     (generateStatBlock "G" CreatureType.monster 0 "n" 0 0 2 0 0 0 0 0).abilityScores.strength
        = 10 ∧
     (generateStatBlock "G" CreatureType.monster 0 "n" 0 0 3 0 0 0 0 0).abilityScores.strength
        = 11) ∧
    ¬ ∃ u : Fin 4,
      (generateStatBlock "G" CreatureType.monster 0 "n" 0 0 u.val 0 0 0 0 0).abilityScores.strength
        = 12 := by decide

/-- C9 amended: each of strength/dexterity/constitution independently equals
min(baseScore + d, 30) where d = u - 2 for a uniform draw u in 0..3, so d
ranges over -2..1 (not -2..2); every offset in -2..1 is attainable by some
draw. -/
theorem c9_amended_ability_offsets (name : String) (ty : CreatureType) (cr : Int)
    (nonce : String) (hpU acU uStr uDex uCon uInt uWis uCha : Nat)
    (hs : uStr < 4) (hd : uDex < 4) (hc : uCon < 4) :
    (generateStatBlock name ty cr nonce hpU acU uStr uDex uCon uInt uWis uCha).abilityScores.strength
      = min (min (10 + max 0 (min 30 cr)) 30 + ((uStr : Int) - 2)) 30 ∧
    (generateStatBlock name ty cr nonce hpU acU uStr uDex uCon uInt uWis uCha).abilityScores.dexterity
      = min (min (10 + max 0 (min 30 cr)) 30 + ((uDex : Int) - 2)) 30 ∧
    (generateStatBlock name ty cr nonce hpU acU uStr uDex uCon uInt uWis uCha).abilityScores.constitution
      = min (min (10 + max 0 (min 30 cr)) 30 + ((uCon : Int) - 2)) 30 ∧
    (-2 ≤ (uStr : Int) - 2 ∧ (uStr : Int) - 2 ≤ 1) ∧
    (∀ d : Int, -2 ≤ d → d ≤ 1 → ∃ u : Nat, u < 4 ∧
      (generateStatBlock name ty cr nonce hpU acU u uDex uCon uInt uWis uCha).abilityScores.strength
        = min (min (10 + max 0 (min 30 cr)) 30 + d) 30) := by
  refine ⟨?_, ?_, ?_, ⟨by omega, by omega⟩, ?_⟩
  · simp only [generateStatBlock]
    omega
  · simp only [generateStatBlock]
    omega
  · simp only [generateStatBlock]
    omega
  · intro d h1 h2
    refine ⟨(d + 2).toNat, by omega, ?_⟩
    simp only [generateStatBlock]
    omega

/-- Witness for C9 amended at cr = 3 with draws 2, 0, 3. -/
theorem c9_amended_witness :
    ((2 : Nat) < 4 ∧ (0 : Nat) < 4 ∧ (3 : Nat) < 4) ∧
    ((generateStatBlock "G" CreatureType.monster 3 "n" 1 1 2 0 3 1 1 1).abilityScores.strength
        = min (min (10 + max 0 (min 30 (3 : Int))) 30 + (((2 : Nat) : Int) - 2)) 30 ∧
     (generateStatBlock "G" CreatureType.monster 3 "n" 1 1 2 0 3 1 1 1).abilityScores.dexterity
        = min (min (10 + max 0 (min 30 (3 : Int))) 30 + (((0 : Nat) : Int) - 2)) 30 ∧
     (generateStatBlock "G" CreatureType.monster 3 "n" 1 1 2 0 3 1 1 1).abilityScores.constitution
        = min (min (10 + max 0 (min 30 (3 : Int))) 30 + (((3 : Nat) : Int) - 2)) 30 ∧
     (-2 ≤ ((2 : Nat) : Int) - 2 ∧ ((2 : Nat) : Int) - 2 ≤ 1) ∧
     (∀ d : Int, -2 ≤ d → d ≤ 1 → ∃ u : Nat, u < 4 ∧
       (generateStatBlock "G" CreatureType.monster 3 "n" 1 1 u 0 3 1 1 1).abilityScores.strength
         = min (min (10 + max 0 (min 30 (3 : Int))) 30 + d) 30)) :=
  ⟨⟨by decide, by decide, by decide⟩,
   c9_amended_ability_offsets "G" CreatureType.monster 3 "n" 1 1 2 0 3 1 1 1
     (by decide) (by decide) (by decide)⟩

/-- C2: when the agent stream fails mid-run (after any consumed prefix of
items), the route emits exactly one error event on the wire, the persisted
status of the encounter afterwards is setup (not completed, not active), and
no transcript message is persisted — the message table is unchanged. -/
theorem c2_failed_run_all_or_nothing (db : DbState) (user : User) (arenaId : String)
    (items : List StreamItem) (errMsg msgId : String) (arena : ArenaRow)
    (hfind : findArena db arenaId = some arena)
    (hauth : ¬(arena.createdBy ≠ user.id ∧ user.role ≠ "admin"))
    (hnomsg : arenaMessages db arenaId = []) :
    (runCombat db user arenaId (AgentOutcome.failure items errMsg) msgId).response =
      RunResponse.streamed ∧
    ((runCombat db user arenaId (AgentOutcome.failure items errMsg) msgId).events.filter
      isErrorEvent).length = 1 ∧
    findArena (runCombat db user arenaId (AgentOutcome.failure items errMsg) msgId).db arenaId =
      some { arena with status := ArenaStatus.setup } ∧
    (runCombat db user arenaId (AgentOutcome.failure items errMsg) msgId).db.messages =
      db.messages := by
  have hrun : runCombat db user arenaId (AgentOutcome.failure items errMsg) msgId =
      ⟨RunResponse.streamed,
       ⟨EventData.statusActive, 0⟩ :: (itemsEvents items 1 ++
         [⟨EventData.error errMsg, 1 + (itemsEvents items 1).length⟩]),
       setArenaStatus (setArenaStatus db arenaId ArenaStatus.active) arenaId
         ArenaStatus.setup⟩ := by
    simp only [runCombat]
    rw [hfind]
    dsimp only
    rw [if_neg hauth, if_neg (by rw [hnomsg]; simp)]
    rfl
  rw [hrun]
  refine ⟨rfl, ?_, ?_, rfl⟩
  · simp [List.filter_cons, List.filter_append, itemsEvents_filter_error, isErrorEvent]
  · exact findArena_setArenaStatus (setArenaStatus db arenaId ArenaStatus.active) arenaId
      ArenaStatus.setup { arena with status := ArenaStatus.active }
      (findArena_setArenaStatus db arenaId ArenaStatus.active arena hfind)

/-- Witness for C2 at a one-arena store, its owner, one consumed text delta,
then a failure. -/
theorem c2_failed_run_witness :
    (findArena ⟨[⟨"a1", "fight", "goblins", ArenaStatus.setup, "u1"⟩], []⟩ "a1" =
       some ⟨"a1", "fight", "goblins", ArenaStatus.setup, "u1"⟩ ∧
     ¬((⟨"a1", "fight", "goblins", ArenaStatus.setup, "u1"⟩ : ArenaRow).createdBy ≠
         (⟨"u1", "player"⟩ : User).id ∧ (⟨"u1", "player"⟩ : User).role ≠ "admin") ∧
     arenaMessages ⟨[⟨"a1", "fight", "goblins", ArenaStatus.setup, "u1"⟩], []⟩ "a1" = []) ∧
    ((runCombat ⟨[⟨"a1", "fight", "goblins", ArenaStatus.setup, "u1"⟩], []⟩ ⟨"u1", "player"⟩
        "a1" (AgentOutcome.failure [StreamItem.textDelta "x"] "boom") "m1").response =
      RunResponse.streamed ∧
     ((runCombat ⟨[⟨"a1", "fight", "goblins", ArenaStatus.setup, "u1"⟩], []⟩ ⟨"u1", "player"⟩
        "a1" (AgentOutcome.failure [StreamItem.textDelta "x"] "boom") "m1").events.filter
        isErrorEvent).length = 1 ∧
     findArena (runCombat ⟨[⟨"a1", "fight", "goblins", ArenaStatus.setup, "u1"⟩], []⟩
        ⟨"u1", "player"⟩ "a1" (AgentOutcome.failure [StreamItem.textDelta "x"] "boom") "m1").db
        "a1" =
      some { (⟨"a1", "fight", "goblins", ArenaStatus.setup, "u1"⟩ : ArenaRow) with
              status := ArenaStatus.setup } ∧
     (runCombat ⟨[⟨"a1", "fight", "goblins", ArenaStatus.setup, "u1"⟩], []⟩ ⟨"u1", "player"⟩
        "a1" (AgentOutcome.failure [StreamItem.textDelta "x"] "boom") "m1").db.messages =
      (⟨[⟨"a1", "fight", "goblins", ArenaStatus.setup, "u1"⟩], []⟩ : DbState).messages) :=
  ⟨⟨by decide, by decide, by decide⟩,
   c2_failed_run_all_or_nothing ⟨[⟨"a1", "fight", "goblins", ArenaStatus.setup, "u1"⟩], []⟩
     ⟨"u1", "player"⟩ "a1" [StreamItem.textDelta "x"] "boom" "m1"
     ⟨"a1", "fight", "goblins", ArenaStatus.setup, "u1"⟩
     (by decide) (by decide) (by decide)⟩

/-- C3: if the encounter already has a persisted transcript message, a run
request (by an authorized user, whatever the agent would do) is answered
AlreadyRun with no wire events and a completely unchanged durable store. -/
theorem c3_rerun_rejected_no_side_effects (db : DbState) (user : User) (arenaId : String)
    (agent : AgentOutcome) (msgId : String) (arena : ArenaRow)
    (hfind : findArena db arenaId = some arena)
    (hauth : ¬(arena.createdBy ≠ user.id ∧ user.role ≠ "admin"))
    (hmsg : arenaMessages db arenaId ≠ []) :
    runCombat db user arenaId agent msgId = ⟨RunResponse.alreadyRun, [], db⟩ := by
  simp only [runCombat]
  rw [hfind]
  dsimp only
  rw [if_neg hauth, if_pos (List.length_pos_iff_ne_nil.mpr hmsg)]

/-- Witness for C3: a store holding one transcript message for the arena. -/
theorem c3_rerun_rejected_witness :
    (findArena ⟨[⟨"a1", "fight", "goblins", ArenaStatus.completed, "u1"⟩],
        [⟨"m0", "a1", "u1", "assistant", "old log"⟩]⟩ "a1" =
       some ⟨"a1", "fight", "goblins", ArenaStatus.completed, "u1"⟩ ∧
     ¬((⟨"a1", "fight", "goblins", ArenaStatus.completed, "u1"⟩ : ArenaRow).createdBy ≠
         (⟨"u1", "player"⟩ : User).id ∧ (⟨"u1", "player"⟩ : User).role ≠ "admin") ∧
     arenaMessages ⟨[⟨"a1", "fight", "goblins", ArenaStatus.completed, "u1"⟩],
        [⟨"m0", "a1", "u1", "assistant", "old log"⟩]⟩ "a1" ≠ []) ∧
    runCombat ⟨[⟨"a1", "fight", "goblins", ArenaStatus.completed, "u1"⟩],
        [⟨"m0", "a1", "u1", "assistant", "old log"⟩]⟩ ⟨"u1", "player"⟩ "a1"
        (AgentOutcome.success [StreamItem.textDelta "again"]) "m1" =
      ⟨RunResponse.alreadyRun, [],
       ⟨[⟨"a1", "fight", "goblins", ArenaStatus.completed, "u1"⟩],
        [⟨"m0", "a1", "u1", "assistant", "old log"⟩]⟩⟩ :=
  ⟨⟨by decide, by decide, by decide⟩,
   c3_rerun_rejected_no_side_effects
     ⟨[⟨"a1", "fight", "goblins", ArenaStatus.completed, "u1"⟩],
      [⟨"m0", "a1", "u1", "assistant", "old log"⟩]⟩
     ⟨"u1", "player"⟩ "a1" (AgentOutcome.success [StreamItem.textDelta "again"]) "m1"
     ⟨"a1", "fight", "goblins", ArenaStatus.completed, "u1"⟩
     (by decide) (by decide) (by decide)⟩

end ArenaAgent
